import Mathlib

/-!
Verification of the ARIA routing rule engine.

This file gives a shallow embedding of the routing-related parts of the
ARIA repository: the backend condition checker (`checkConditions` in
`backend/src/routes/routes.ts`), the webhook dispatch handlers
(`backend/src/routes/webhooks.ts`), the dry-run test endpoint
(`POST /:id/test` in `backend/src/routes/routes.ts`), and the mobile
client's `RoutingService` (`ARIA_iOS.swift`).

Strings are modelled by Lean `String` (a list of characters); JavaScript's
`toLowerCase`, `includes`, `startsWith`, `trim` and `split(',')` and
Swift's `lowercased()`, `contains`, `trimmingCharacters(in: .whitespaces)`
and `split(separator: ",")` are modelled character-by-character below.
-/

namespace Aria

/-! ## Character-level string operations shared by both implementations -/

/-- Lower-casing of a string, character by character.  Models both
JavaScript `String.prototype.toLowerCase` and Swift `lowercased()`
(restricted to the simple per-character case mapping). -/
def lowerStr (s : String) : String := ⟨s.data.map Char.toLower⟩

/-- Boolean test that `pre` occurs at the very start of `s`.
Models JavaScript `s.startsWith(pre)`. -/
def listBegins : List Char → List Char → Bool
  | [], _ => true
  | _ :: _, [] => false
  | a :: as, b :: bs => (a == b) && listBegins as bs

/-- Boolean substring test: `sub` occurs contiguously somewhere in the
second list.  Models JavaScript `s.includes(sub)`. -/
def listHas : List Char → List Char → Bool
  | sub, [] => listBegins sub []
  | sub, b :: bs => listBegins sub (b :: bs) || listHas sub bs

/-- JavaScript `s.includes(sub)` on the `String` wrapper. -/
def includes (s sub : String) : Bool := listHas sub.data s.data

/-- JavaScript `s.startsWith(sub)` on the `String` wrapper. -/
def startsB (s sub : String) : Bool := listBegins sub.data s.data

/-- Whitespace recognised by JavaScript `String.prototype.trim`
(restricted to the ASCII whitespace characters). -/
def isWS (c : Char) : Bool := c == ' ' || c == '\t' || c == '\n' || c == '\r'

/-- Drop whitespace from both ends of a character list. -/
def trimWith (p : Char → Bool) (l : List Char) : List Char :=
  ((l.dropWhile p).reverse.dropWhile p).reverse

/-- JavaScript `s.trim()`. -/
def trimJS (s : String) : String := ⟨trimWith isWS s.data⟩

/-- JavaScript `s.split(',')`: split on every comma, keeping empty pieces. -/
def splitComma (s : String) : List String :=
  (s.data.splitOn ',').map (fun l => ⟨l⟩)

/-- Declarative counterpart of `listBegins`: the first list is an initial
segment of the second. -/
def BeginsWith (pre s : List Char) : Prop := ∃ r, s = pre ++ r

/-- Declarative counterpart of `listHas`: the first list occurs
contiguously inside the second. -/
def OccursIn (sub s : List Char) : Prop := ∃ l r, s = l ++ sub ++ r

/-! ## Backend rule matcher (`checkConditions`, backend/src/routes/routes.ts) -/

namespace Backend

/-- Condition as handled by the backend `checkConditions` helper: the
`type` field is an arbitrary string (the helper receives the stored JSON
cast to an array of records with string fields `type` and `value`). -/
structure Condition where
  type : String
  value : String
deriving DecidableEq

/-- Check of one condition against the already lower-cased content,
translated from the body of the `for`/`switch` in `checkConditions`:
`contains` and `starts_with` compare against the lower-cased value,
`keyword` splits the value on commas, trims and lower-cases each token
and succeeds when some token occurs in the content, and every other
type falls through the `switch` without any check. -/
def evalCondition (lowerContent : String) (c : Condition) : Bool :=
  match c.type with
  | "contains" => includes lowerContent (lowerStr c.value)
  | "starts_with" => startsB lowerContent (lowerStr c.value)
  | "keyword" =>
    let keywords := (splitComma c.value).map (fun k => lowerStr (trimJS k))
    keywords.any (fun k => includes lowerContent k)
  | _ => true

/-- Loop of `checkConditions`: on a failed check the function returns
`false` immediately, otherwise it continues with the remaining
conditions, and returns `true` once the list is exhausted. -/
def checkFrom (lowerContent : String) : List Condition → Bool
  | [] => true
  | c :: rest => if evalCondition lowerContent c then checkFrom lowerContent rest else false

/-- Translation of `checkConditions(content, conditions)`: the content is
lower-cased once and every condition is checked against it. -/
def checkConditions (content : String) (conditions : List Condition) : Bool :=
  checkFrom (lowerStr content) conditions

/-! ## Webhook dispatch handlers (backend/src/routes/webhooks.ts)

Each `POST /api/v1/webhooks/<channel>` handler is modelled as a function
from the request data and the outcome of its single outbound `fetch`
call to the pair of the list of `messageLog` rows it creates and the
HTTP status code of its reply.  The `fetch` outcome is an explicit
parameter (`FetchResult`): either a response with a status code and a
body, or a thrown network exception carrying a message. -/

/-- Row created by `prisma.messageLog.create` (the persisted
`DeliveryLogEntry`). -/
structure MessageLogEntry where
  userId : String
  channel : String
  destination : String
  content : String
  status : String
  error : Option String
deriving DecidableEq

/-- Outcome of an outbound `fetch` call: a response (any status) or a
thrown exception with its message. -/
inductive FetchResult where
  | resp (status : Nat) (body : String)
  | exc (msg : String)
deriving DecidableEq

/-- JavaScript `response.ok`: status in the 2xx range. -/
def respOk (status : Nat) : Bool := 200 ≤ status && status < 300

/-- JavaScript `s.slice(0, n)`. -/
def sliceTo (n : Nat) (s : String) : String := ⟨s.data.take n⟩

/-- Discord handler after a successful schema parse: POST to the webhook
URL; a 2xx response logs one `sent` entry with the content truncated to
1000 characters and replies 200; a non-2xx response throws
`Discord webhook failed: <status>` and a thrown exception is caught and
logged as one `failed` entry with the exception message, replying 500.
In the catch path the handler re-reads `content` and `webhookUrl` from
the raw request body, which for a parsed request are the parsed values. -/
def discordSend (userId content webhookUrl : String) (net : FetchResult) :
    List MessageLogEntry × Nat :=
  match net with
  | .resp status _ =>
    if respOk status then
      ([⟨userId, "discord", webhookUrl, sliceTo 1000 content, "sent", none⟩], 200)
    else
      ([⟨userId, "discord", webhookUrl, sliceTo 1000 content, "failed",
        some ("Discord webhook failed: " ++ toString status)⟩], 500)
  | .exc msg =>
    ([⟨userId, "discord", webhookUrl, sliceTo 1000 content, "failed", some msg⟩], 500)

/-- Telegram handler after a successful schema parse, same shape as the
Discord handler with channel `telegram`, destination `chatId` and error
message `Telegram API failed: <status>` on a non-2xx response. -/
def telegramSend (userId content chatId : String) (net : FetchResult) :
    List MessageLogEntry × Nat :=
  match net with
  | .resp status _ =>
    if respOk status then
      ([⟨userId, "telegram", chatId, sliceTo 1000 content, "sent", none⟩], 200)
    else
      ([⟨userId, "telegram", chatId, sliceTo 1000 content, "failed",
        some ("Telegram API failed: " ++ toString status)⟩], 500)
  | .exc msg =>
    ([⟨userId, "telegram", chatId, sliceTo 1000 content, "failed", some msg⟩], 500)

/-- Slack handler after a successful schema parse, same shape as the
Discord handler with channel `slack` and error message
`Slack webhook failed: <status>` on a non-2xx response. -/
def slackSend (userId content webhookUrl : String) (net : FetchResult) :
    List MessageLogEntry × Nat :=
  match net with
  | .resp status _ =>
    if respOk status then
      ([⟨userId, "slack", webhookUrl, sliceTo 1000 content, "sent", none⟩], 200)
    else
      ([⟨userId, "slack", webhookUrl, sliceTo 1000 content, "failed",
        some ("Slack webhook failed: " ++ toString status)⟩], 500)
  | .exc msg =>
    ([⟨userId, "slack", webhookUrl, sliceTo 1000 content, "failed", some msg⟩], 500)

/-- SMS handler after a successful schema parse: no outbound call is made
(the Twilio integration is a stub); one `sent` entry is logged with the
content truncated to 1000 characters. -/
def smsSend (userId content phoneNumber : String) : List MessageLogEntry × Nat :=
  ([⟨userId, "sms", phoneNumber, sliceTo 1000 content, "sent", none⟩], 200)

/-- Email handler after a successful schema parse: no outbound call is
made (the provider integration is a stub); one `sent` entry is logged
whose `content` field is the raw `subject`, with no truncation. -/
def emailSend (userId toAddr subject : String) : List MessageLogEntry × Nat :=
  ([⟨userId, "email", toAddr, subject, "sent", none⟩], 200)

/-- Generic webhook handler after a successful schema parse: the request
body is forwarded and one entry is logged when a response is received,
`sent` on 2xx and `failed` with `HTTP <status>` otherwise, replying 200
either way; a thrown exception is caught without logging anything and
the handler replies 500.  `bodyJson` is `JSON.stringify` of the optional
request `body` field. -/
def customSend (userId url : String) (bodyJson : Option String) (net : FetchResult) :
    List MessageLogEntry × Nat :=
  match net with
  | .resp status _ =>
    ([⟨userId, "webhook", url, (bodyJson.map (sliceTo 1000)).getD "",
      (if respOk status then "sent" else "failed"),
      (if respOk status then none else some ("HTTP " ++ toString status))⟩], 200)
  | .exc _ => ([], 500)

/-- Shape of an incoming webhook request body with both fields optional,
before schema validation. -/
structure RawBody where
  content : Option String
  webhookUrl : Option String
deriving DecidableEq

/-- Approximation of `z.string().url()`: the string must mention a URL
scheme separator.  The claims checked below never depend on the exact
extent of this predicate, only on the presence/absence of fields. -/
def isUrlOk (s : String) : Bool := includes s "://"

/-- Parse of `discordWebhookSchema` (and of the identical `slackSchema`):
both `content` and `webhookUrl` must be present and the URL must be
valid. -/
def parseHookBody (r : RawBody) : Option (String × String) :=
  match r.content, r.webhookUrl with
  | some c, some u => if isUrlOk u then some (c, u) else none
  | _, _ => none

/-- Full Discord route including schema validation: a parse failure is a
thrown `ZodError`, caught by the same catch block as network failures,
which logs one `failed` entry built from the raw body fields (missing
fields default to the empty string) and replies 500. -/
def discordRoute (userId : String) (r : RawBody) (net : FetchResult) :
    List MessageLogEntry × Nat :=
  match parseHookBody r with
  | some (c, u) => discordSend userId c u net
  | none =>
    ([⟨userId, "discord", r.webhookUrl.getD "", (r.content.map (sliceTo 1000)).getD "",
      "failed", some "ZodError"⟩], 500)

/-- Full Slack route including schema validation, mirroring
`discordRoute`. -/
def slackRoute (userId : String) (r : RawBody) (net : FetchResult) :
    List MessageLogEntry × Nat :=
  match parseHookBody r with
  | some (c, u) => slackSend userId c u net
  | none =>
    ([⟨userId, "slack", r.webhookUrl.getD "", (r.content.map (sliceTo 1000)).getD "",
      "failed", some "ZodError"⟩], 500)

/-- Parse of `smsSchema`: `content` and `phoneNumber` must be present
(the Twilio credential fields are optional and unused). -/
def parseSmsBody (content phoneNumber : Option String) : Option (String × String) :=
  match content, phoneNumber with
  | some c, some p => some (c, p)
  | _, _ => none

/-- Full SMS route: a parse failure is caught by a catch block that logs
nothing and replies 500. -/
def smsRoute (userId : String) (content phoneNumber : Option String) :
    List MessageLogEntry × Nat :=
  match parseSmsBody content phoneNumber with
  | some (c, p) => smsSend userId c p
  | none => ([], 500)

/-- Approximation of `z.string().email()`: the address must mention an
at sign.  As with `isUrlOk`, no claim depends on its exact extent. -/
def isEmailOk (s : String) : Bool := includes s "@"

/-- Parse of `emailSchema`: `to`, `subject` and `body` must be present
and `to` must be a valid email address. -/
def parseEmailBody (toAddr subject body : Option String) : Option (String × String) :=
  match toAddr, subject, body with
  | some t, some s, some _ => if isEmailOk t then some (t, s) else none
  | _, _, _ => none

/-- Full email route: a parse failure is caught by a catch block that
logs nothing and replies 500. -/
def emailRoute (userId : String) (toAddr subject body : Option String) :
    List MessageLogEntry × Nat :=
  match parseEmailBody toAddr subject body with
  | some (t, s) => emailSend userId t s
  | none => ([], 500)

/-- Parse of `genericWebhookSchema`: `url` must be present and valid;
the optional `body` is carried through as its JSON string. -/
def parseCustomBody (url : Option String) (bodyJson : Option String) :
    Option (String × Option String) :=
  match url with
  | some u => if isUrlOk u then some (u, bodyJson) else none
  | none => none

/-- Full generic webhook route: a parse failure is caught by a catch
block that logs nothing and replies 500. -/
def customRoute (userId : String) (url : Option String) (bodyJson : Option String)
    (net : FetchResult) : List MessageLogEntry × Nat :=
  match parseCustomBody url bodyJson with
  | some (u, bj) => customSend userId u bj net
  | none => ([], 500)

/-! ## Dry-run test endpoint (`POST /:id/test`, backend/src/routes/routes.ts) -/

/-- Action as stored on a backend routing rule. -/
structure RouteAction where
  channel : String
  destination : String
deriving DecidableEq

/-- Stored `routingRule` row as read by the test endpoint. -/
structure StoredRule where
  id : String
  userId : String
  name : String
  conditions : List Condition
  actions : List RouteAction
  isEnabled : Bool
deriving DecidableEq

/-- Server-side persistent state visible to the routing endpoints: the
rule table and the message log table. -/
structure ServerState where
  rules : List StoredRule
  logs : List MessageLogEntry
deriving DecidableEq

/-- Reply of the test endpoint: 404 when the rule is missing or owned by
another user, otherwise the matcher verdict together with the rule's
name and actions. -/
inductive TestReply where
  | notFound
  | ok (matched : Bool) (name : String) (actions : List RouteAction)
deriving DecidableEq

/-- Translation of `prisma.routingRule.findFirst` filtered by rule id and
requesting user id. -/
def findFirstRule (rules : List StoredRule) (id userId : String) : Option StoredRule :=
  rules.find? (fun r => r.id == id && r.userId == userId)

/-- Translation of the `POST /:id/test` handler: look the rule up, reply
404 when absent, otherwise reply with `checkConditions` applied to the
request content and the rule's stored conditions.  The handler performs
no other store operation, so the state is returned unchanged. -/
def testRoute (st : ServerState) (id userId content : String) : ServerState × TestReply :=
  match findFirstRule st.rules id userId with
  | none => (st, .notFound)
  | some r => (st, .ok (checkConditions content r.conditions) r.name r.actions)

end Backend

/-! ## Mobile client routing service (`RoutingService`, ARIA_iOS.swift) -/

namespace Mobile

/-- Condition type enumeration of the iOS `RoutingRule.Condition`. -/
inductive ConditionType where
  | contains
  | startsWith
  | sentiment
  | timeOfDay
  | keyword
deriving DecidableEq

/-- Raw string value of each `ConditionType` case, as declared in the
Swift enum. -/
def ConditionType.rawValue : ConditionType → String
  | .contains => "contains"
  | .startsWith => "starts_with"
  | .sentiment => "sentiment"
  | .timeOfDay => "time_of_day"
  | .keyword => "keyword"

/-- iOS `RoutingRule.Condition`. -/
structure Condition where
  type : ConditionType
  value : String
deriving DecidableEq

/-- Channel enumeration of the iOS `RoutingRule.Action`. -/
inductive Channel where
  | discord
  | telegram
  | sms
  | email
  | slack
  | webhook
deriving DecidableEq

/-- iOS `RoutingRule.Action`. -/
structure Action where
  channel : Channel
  destination : String
deriving DecidableEq

/-- iOS `RoutingRule`.  The Swift struct has no priority field. -/
structure RoutingRule where
  id : String
  name : String
  conditions : List Condition
  actions : List Action
  isEnabled : Bool
deriving DecidableEq

/-- Whitespace of Foundation's `.whitespaces` character set (space and
horizontal tab; newlines are not included, unlike JavaScript `trim`). -/
def isWSswift (c : Char) : Bool := c == ' ' || c == '\t'

/-- Swift `s.trimmingCharacters(in: .whitespaces)`. -/
def trimSwift (s : String) : String := ⟨trimWith isWSswift s.data⟩

/-- Swift `s.contains(sub)` for strings: false on an empty search
string, otherwise a substring test. -/
def swiftContains (s sub : String) : Bool := (!sub.data.isEmpty) && listHas sub.data s.data

/-- Swift `s.split(separator: ",")`: split on commas, omitting empty
subsequences (the default behaviour of `split(separator:)`). -/
def splitSeq (s : String) : List String :=
  ((s.data.splitOn ',').filter (fun l => !l.isEmpty)).map (fun l => ⟨l⟩)

/-- Check of one condition inside `RoutingService.matchesRule`: the
`switch` handles only `.contains` and `.keyword`; every other case hits
`default: break` and passes.  For `.keyword` the value is split on
commas (omitting empty pieces), each piece trimmed of `.whitespaces`
and lower-cased, and the condition passes when the lower-cased content
contains some piece. -/
def evalSwiftCondition (content : String) (c : Condition) : Bool :=
  match c.type with
  | .contains => swiftContains (lowerStr content) (lowerStr c.value)
  | .keyword =>
    let keywords := (splitSeq c.value).map (fun k => lowerStr (trimSwift k))
    keywords.any (fun k => swiftContains (lowerStr content) k)
  | _ => true

/-- Loop of `RoutingService.matchesRule` over the rule's conditions,
returning `false` on the first failed condition. -/
def matchesFrom (content : String) : List Condition → Bool
  | [] => true
  | c :: rest => if evalSwiftCondition content c then matchesFrom content rest else false

/-- Translation of `RoutingService.matchesRule(content, rule:)`. -/
def matchesRule (content : String) (rule : RoutingRule) : Bool :=
  matchesFrom content rule.conditions

/-- Outbound delivery attempt issued by
`RoutingService.executeAction`: the channel-specific send call with its
destination and content.  The iOS send functions perform no logging. -/
structure Dispatch where
  channel : Channel
  destination : String
  content : String
deriving DecidableEq

/-- Translation of `RoutingService.executeAction(action, content:)`:
switch on the channel and issue the corresponding send call. -/
def executeAction (a : Action) (content : String) : Dispatch :=
  ⟨a.channel, a.destination, content⟩

/-- Translation of `RoutingService.routeResponse(response, rules:)`: for
each rule in order, skip it when disabled, otherwise on a match execute
every action of the rule in list order; processing always continues
with the following rules. -/
def routeResponse (response : String) : List RoutingRule → List Dispatch
  | [] => []
  | r :: rest =>
    (if r.isEnabled then
      (if matchesRule response r then r.actions.map (fun a => executeAction a response) else [])
     else []) ++ routeResponse response rest

/-- Dispatches contributed by a single rule: all of its actions when it
is enabled and matches, nothing otherwise. -/
def ruleDispatches (response : String) (r : RoutingRule) : List Dispatch :=
  if r.isEnabled && matchesRule response r then r.actions.map (fun a => executeAction a response)
  else []

end Mobile

/-! ## Relating the two matchers -/

/-- Image of an iOS condition in the backend representation: the stored
JSON uses the Swift enum's raw string value as the `type` field. -/
def toBackendCondition (c : Mobile.Condition) : Backend.Condition :=
  ⟨c.type.rawValue, c.value⟩

/-- Conditions on which the backend and iOS evaluators coincide: the
type is not `starts_with` (which the iOS switch ignores), a `contains`
value is non-empty (Swift's `contains` rejects the empty search
string), and every comma-separated piece of a `keyword` value trims to
a non-empty token and holds no CR/LF characters (JavaScript `trim`
strips newlines while `.whitespaces` does not, and Swift's split drops
empty pieces while JavaScript's keeps them). -/
def CondAligned (c : Mobile.Condition) : Prop :=
  c.type ≠ .startsWith
  ∧ (c.type = .contains → c.value ≠ "")
  ∧ (c.type = .keyword → ∀ t ∈ c.value.data.splitOn ',',
      trimWith isWS t ≠ [] ∧ '\n' ∉ t ∧ '\r' ∉ t)

/-! ## Concrete sample values used to instantiate hypotheses -/

/-- Sample disabled rule. -/
def sampleDisabledRule : Mobile.RoutingRule :=
  ⟨"r0", "muted", [⟨.contains, "x"⟩], [⟨.discord, "https://example.com/hook"⟩], false⟩

/-- Sample enabled rule with one action. -/
def sampleEnabledRule : Mobile.RoutingRule :=
  ⟨"r1", "team", [⟨.contains, "team"⟩], [⟨.slack, "https://hooks/x"⟩], true⟩

/-- Sample stored backend rule. -/
def sampleStoredRule : Backend.StoredRule :=
  ⟨"id1", "u1", "invoices", [⟨"contains", "invoice"⟩], [⟨"email", "a@b.c"⟩], true⟩

/-- Sample server state holding the sample rule and an empty log. -/
def sampleState : Backend.ServerState := ⟨[sampleStoredRule], []⟩

/-- Subject string of 1001 characters used to exhibit the missing
truncation in the email handler. -/
def longSubject : String := ⟨List.replicate 1001 'a'⟩

/-! ## Lemmas about the string primitives -/

theorem listBegins_iff : ∀ (pre s : List Char), listBegins pre s = true ↔ BeginsWith pre s
  | [], s => by simp [listBegins, BeginsWith]
  | _ :: _, [] => by simp [listBegins, BeginsWith]
  | a :: as, b :: bs => by
    simp only [listBegins, Bool.and_eq_true, beq_iff_eq, listBegins_iff as bs, BeginsWith]
    constructor
    · rintro ⟨rfl, r, rfl⟩
      exact ⟨r, rfl⟩
    · rintro ⟨r, h⟩
      rw [List.cons_append] at h
      injection h with h1 h2
      exact ⟨h1.symm, r, h2⟩

theorem listHas_iff : ∀ (sub s : List Char), listHas sub s = true ↔ OccursIn sub s
  | sub, [] => by
    simp only [listHas, listBegins_iff, BeginsWith, OccursIn]
    constructor
    · rintro ⟨r, h⟩
      exact ⟨[], r, by simpa using h⟩
    · rintro ⟨l, r, h⟩
      rcases List.append_eq_nil.mp h.symm with ⟨h1, h2⟩
      rcases List.append_eq_nil.mp h1 with ⟨rfl, rfl⟩
      exact ⟨[], rfl⟩
  | sub, b :: bs => by
    simp only [listHas, Bool.or_eq_true, listBegins_iff, listHas_iff sub bs, BeginsWith, OccursIn]
    constructor
    · rintro (⟨r, h⟩ | ⟨l, r, h⟩)
      · exact ⟨[], r, by simpa using h⟩
      · exact ⟨b :: l, r, by simp [h]⟩
    · rintro ⟨l, r, h⟩
      cases l with
      | nil => exact Or.inl ⟨r, by simpa using h⟩
      | cons x xs =>
        rw [List.cons_append, List.cons_append] at h
        injection h with _ h2
        exact Or.inr ⟨xs, r, h2⟩

theorem includes_iff (s sub : String) : includes s sub = true ↔ OccursIn sub.data s.data :=
  listHas_iff sub.data s.data

theorem startsB_iff (s sub : String) : startsB s sub = true ↔ BeginsWith sub.data s.data :=
  listBegins_iff sub.data s.data

theorem sliceTo_length_le (n : Nat) (s : String) : (Backend.sliceTo n s).length ≤ n := by
  show (s.data.take n).length ≤ n
  exact List.length_take_le n s.data

/-! ## Lemmas about the backend matcher -/

theorem checkFrom_iff_all (lc : String) :
    ∀ conds : List Backend.Condition,
      Backend.checkFrom lc conds = true ↔ ∀ c ∈ conds, Backend.evalCondition lc c = true
  | [] => by simp [Backend.checkFrom]
  | c :: rest => by
    cases h : Backend.evalCondition lc c with
    | true =>
      rw [Backend.checkFrom, if_pos h, checkFrom_iff_all lc rest]
      constructor
      · intro hall c' hmem
        rcases List.mem_cons.mp hmem with rfl | hmem'
        · exact h
        · exact hall c' hmem'
      · intro hall c' hmem
        exact hall c' (List.mem_cons_of_mem c hmem)
    | false =>
      rw [Backend.checkFrom, if_neg (by simp [h])]
      constructor
      · intro hf
        exact (Bool.false_ne_true hf).elim
      · intro hall
        have hc := hall c (List.mem_cons_self c rest)
        rw [h] at hc
        exact (Bool.false_ne_true hc).elim

theorem evalCondition_unknown (lc : String) (c : Backend.Condition)
    (h1 : c.type ≠ "contains") (h2 : c.type ≠ "starts_with") (h3 : c.type ≠ "keyword") :
    Backend.evalCondition lc c = true := by
  unfold Backend.evalCondition
  split
  · exact absurd (by assumption) h1
  · exact absurd (by assumption) h2
  · exact absurd (by assumption) h3
  · rfl

theorem checkFrom_insert (lc : String) (c : Backend.Condition)
    (hc : Backend.evalCondition lc c = true) :
    ∀ (pre post : List Backend.Condition),
      Backend.checkFrom lc (pre ++ c :: post) = Backend.checkFrom lc (pre ++ post)
  | [], post => by simp [Backend.checkFrom, hc]
  | p :: pre, post => by
    show (if Backend.evalCondition lc p then Backend.checkFrom lc (pre ++ c :: post) else false) = _
    rw [checkFrom_insert lc c hc pre post]
    rfl

/-! ## Claim C2 -/

/-- C2: for every text and every rule, the backend matcher returns true
exactly when every condition in the rule's condition list evaluates to
true (the loop is a short-circuit AND in sequence order), and it
returns true on every rule whose condition list is empty. -/
theorem checkConditions_iff_every_condition (text : String) (conds : List Backend.Condition) :
    (Backend.checkConditions text conds = true ↔
      ∀ c ∈ conds, Backend.evalCondition (lowerStr text) c = true)
    ∧ Backend.checkConditions text [] = true :=
  ⟨checkFrom_iff_all (lowerStr text) conds, rfl⟩

/-! ## Claim C3 -/

/-- C3: a `contains` condition evaluates to true exactly when the
lower-cased value occurs as a substring of the lower-cased text, and a
`starts_with` condition evaluates to true exactly when the lower-cased
text begins with the lower-cased value; both comparisons are performed
on the lower-cased strings, hence case-insensitively. -/
theorem contains_and_startsWith_semantics (text v : String) :
    (Backend.evalCondition (lowerStr text) ⟨"contains", v⟩ = true ↔
      OccursIn (lowerStr v).data (lowerStr text).data)
    ∧ (Backend.evalCondition (lowerStr text) ⟨"starts_with", v⟩ = true ↔
      BeginsWith (lowerStr v).data (lowerStr text).data) :=
  ⟨includes_iff (lowerStr text) (lowerStr v), startsB_iff (lowerStr text) (lowerStr v)⟩

/-! ## Claim C4 -/

/-- C4: a `keyword` condition evaluates to true exactly when some token
obtained by splitting its value on commas, trimming surrounding
whitespace and lower-casing occurs as a substring of the lower-cased
text. -/
theorem keyword_any_token_semantics (text v : String) :
    Backend.evalCondition (lowerStr text) ⟨"keyword", v⟩ = true ↔
      ∃ k ∈ (splitComma v).map (fun t => lowerStr (trimJS t)),
        OccursIn k.data (lowerStr text).data := by
  show ((splitComma v).map (fun k => lowerStr (trimJS k))).any
      (fun k => includes (lowerStr text) k) = true ↔ _
  rw [List.any_eq_true]
  exact exists_congr fun k => and_congr_right fun _ => includes_iff (lowerStr text) k

/-! ## Claim C5 -/

/-- C5: a condition whose type is `sentiment`, `time_of_day` or any
other string outside the three handled cases evaluates to true, and
inserting such a condition anywhere in a rule's condition list never
changes the matcher's verdict, so it never causes the rule to fail. -/
theorem unknown_condition_fail_open (text : String) (c : Backend.Condition)
    (pre post : List Backend.Condition)
    (h : c.type ≠ "contains" ∧ c.type ≠ "starts_with" ∧ c.type ≠ "keyword") :
    Backend.evalCondition (lowerStr text) c = true
    ∧ Backend.checkConditions text (pre ++ c :: post) = Backend.checkConditions text (pre ++ post) := by
  have he := evalCondition_unknown (lowerStr text) c h.1 h.2.1 h.2.2
  exact ⟨he, checkFrom_insert (lowerStr text) c he pre post⟩

/-- Instantiation of `unknown_condition_fail_open` at a `sentiment`
condition inside a concrete rule. -/
theorem unknown_condition_fail_open_witness :
    Backend.evalCondition (lowerStr "Send help") ⟨"sentiment", "positive"⟩ = true
    ∧ Backend.checkConditions "Send help" [⟨"sentiment", "positive"⟩]
      = Backend.checkConditions "Send help" [] :=
  unknown_condition_fail_open "Send help" ⟨"sentiment", "positive"⟩ [] []
    ⟨by decide, by decide, by decide⟩

/-! ## Lemmas about the mobile routing service -/

theorem routeResponse_append (response : String) :
    ∀ (l1 l2 : List Mobile.RoutingRule),
      Mobile.routeResponse response (l1 ++ l2)
        = Mobile.routeResponse response l1 ++ Mobile.routeResponse response l2
  | [], l2 => rfl
  | r :: rest, l2 => by
    simp only [List.cons_append, Mobile.routeResponse,
      routeResponse_append response rest l2, List.append_assoc, List.append_eq]

theorem routeResponse_eq_join (response : String) :
    ∀ rules : List Mobile.RoutingRule,
      Mobile.routeResponse response rules = (rules.map (Mobile.ruleDispatches response)).flatten
  | [] => rfl
  | r :: rest => by
    simp only [Mobile.routeResponse, List.map_cons, List.flatten_cons,
      routeResponse_eq_join response rest]
    congr 1
    cases he : r.isEnabled with
    | false => simp [Mobile.ruleDispatches, he]
    | true =>
      cases hm : Mobile.matchesRule response r with
      | false => simp [Mobile.ruleDispatches, he, hm]
      | true => simp [Mobile.ruleDispatches, he, hm]

/-! ## Claim C6 -/

/-- C6: the mobile routing pass never takes dispatches from a disabled
rule (removing a disabled rule from anywhere in the rule list leaves
the emitted dispatch sequence unchanged), and the full pass is exactly
the concatenation, in rule order, of each enabled matching rule's
actions in their list order — no early termination after the first
matching rule.  The iOS send functions create no log entries at all, so
a disabled rule in particular contributes none. -/
theorem routing_skips_disabled_and_fans_out (response : String)
    (rules pre post : List Mobile.RoutingRule) (r : Mobile.RoutingRule)
    (h : r.isEnabled = false) :
    Mobile.routeResponse response (pre ++ r :: post) = Mobile.routeResponse response (pre ++ post)
    ∧ Mobile.routeResponse response rules
      = (rules.map (Mobile.ruleDispatches response)).flatten := by
  constructor
  · rw [routeResponse_append, routeResponse_append]
    have hr : Mobile.routeResponse response (r :: post) = Mobile.routeResponse response post := by
      simp [Mobile.routeResponse, h]
    rw [hr]
  · exact routeResponse_eq_join response rules

/-- Instantiation of `routing_skips_disabled_and_fans_out` on a
two-rule list holding an enabled matching rule and a disabled rule. -/
theorem routing_skips_disabled_witness :
    Mobile.routeResponse "Send update to the team" ([sampleEnabledRule] ++ sampleDisabledRule :: [])
      = Mobile.routeResponse "Send update to the team" ([sampleEnabledRule] ++ [])
    ∧ Mobile.routeResponse "Send update to the team" [sampleEnabledRule, sampleDisabledRule]
      = ([sampleEnabledRule, sampleDisabledRule].map
          (Mobile.ruleDispatches "Send update to the team")).flatten :=
  routing_skips_disabled_and_fans_out "Send update to the team"
    [sampleEnabledRule, sampleDisabledRule] [sampleEnabledRule] [] sampleDisabledRule rfl

/-! ## Lemmas relating the backend and mobile matchers -/

theorem evalCondition_at_contains (lc v : String) :
    Backend.evalCondition lc ⟨"contains", v⟩ = includes lc (lowerStr v) := rfl

theorem evalCondition_at_keyword (lc v : String) :
    Backend.evalCondition lc ⟨"keyword", v⟩ =
      ((splitComma v).map (fun k => lowerStr (trimJS k))).any (fun k => includes lc k) := rfl

theorem dropWhile_congr_mem (p q : Char → Bool) :
    ∀ l : List Char, (∀ a ∈ l, p a = q a) → l.dropWhile p = l.dropWhile q
  | [], _ => rfl
  | a :: l, h => by
    have ha := h a (List.mem_cons_self a l)
    rw [List.dropWhile_cons, List.dropWhile_cons, ha]
    cases hq : q a with
    | false => simp
    | true =>
      simpa using dropWhile_congr_mem p q l (fun b hb => h b (List.mem_cons_of_mem a hb))

theorem mem_of_mem_dropWhile (p : Char → Bool) :
    ∀ l : List Char, ∀ a ∈ l.dropWhile p, a ∈ l
  | [], a, ha => ha
  | b :: l, a, ha => by
    rw [List.dropWhile_cons] at ha
    by_cases hb : p b = true
    · rw [if_pos hb] at ha
      exact List.mem_cons_of_mem b (mem_of_mem_dropWhile p l a ha)
    · rw [if_neg hb] at ha
      exact ha

theorem trimWith_congr (p q : Char → Bool) (l : List Char) (h : ∀ a ∈ l, p a = q a) :
    trimWith p l = trimWith q l := by
  unfold trimWith
  rw [dropWhile_congr_mem p q l h]
  have h2 : ∀ a ∈ (l.dropWhile q).reverse, p a = q a := by
    intro a ha
    exact h a (mem_of_mem_dropWhile q l a (List.mem_reverse.mp ha))
  rw [dropWhile_congr_mem p q _ h2]

theorem any_congr_mem {α : Type} (p q : α → Bool) :
    ∀ l : List α, (∀ a ∈ l, p a = q a) → l.any p = l.any q
  | [], _ => rfl
  | a :: l, h => by
    simp only [List.any_cons, h a (List.mem_cons_self a l),
      any_congr_mem p q l (fun b hb => h b (List.mem_cons_of_mem a hb))]

theorem swiftContains_eq_includes (s tk : String) (h : tk.data ≠ []) :
    Mobile.swiftContains s tk = includes s tk := by
  cases htk : tk.data with
  | nil => exact absurd htk h
  | cons x xs =>
    show ((!tk.data.isEmpty) && listHas tk.data s.data) = listHas tk.data s.data
    rw [htk]
    rfl

theorem trimWith_nil (p : Char → Bool) : trimWith p [] = [] := rfl

theorem string_eq_empty_of_data_nil (s : String) (h : s.data = []) : s = "" := by
  cases s with
  | mk d =>
    change d = [] at h
    subst h
    rfl

theorem evalCondition_agree (text : String) (c : Mobile.Condition) (h : CondAligned c) :
    Backend.evalCondition (lowerStr text) (toBackendCondition c)
      = Mobile.evalSwiftCondition text c := by
  obtain ⟨hns, hcv, hkw⟩ := h
  cases hct : c.type with
  | startsWith => exact absurd hct hns
  | sentiment =>
    simp only [toBackendCondition, hct, Mobile.ConditionType.rawValue]
    simp [Mobile.evalSwiftCondition, hct]
    rfl
  | timeOfDay =>
    simp only [toBackendCondition, hct, Mobile.ConditionType.rawValue]
    simp [Mobile.evalSwiftCondition, hct]
    rfl
  | contains =>
    have hv : c.value ≠ "" := hcv hct
    have hvd : (lowerStr c.value).data ≠ [] := by
      intro h0
      exact hv (string_eq_empty_of_data_nil c.value (List.map_eq_nil_iff.mp h0))
    simp only [toBackendCondition, hct, Mobile.ConditionType.rawValue]
    rw [evalCondition_at_contains]
    simp only [Mobile.evalSwiftCondition, hct]
    exact (swiftContains_eq_includes (lowerStr text) (lowerStr c.value) hvd).symm
  | keyword =>
    have hk := hkw hct
    -- with no CR/LF in a piece the two whitespace sets agree on it
    have htrimEq : ∀ t ∈ c.value.data.splitOn ',',
        trimWith isWS t = trimWith Mobile.isWSswift t := by
      intro t ht
      apply trimWith_congr
      intro a ha
      have h1 : (a == '\n') = false := by
        refine beq_eq_false_iff_ne.mpr ?_
        intro hEq
        exact (hk t ht).2.1 (hEq ▸ ha)
      have h2 : (a == '\r') = false := by
        refine beq_eq_false_iff_ne.mpr ?_
        intro hEq
        exact (hk t ht).2.2 (hEq ▸ ha)
      simp [isWS, Mobile.isWSswift, h1, h2]
    simp only [toBackendCondition, hct, Mobile.ConditionType.rawValue]
    rw [evalCondition_at_keyword]
    simp only [Mobile.evalSwiftCondition, hct]
    -- Swift's split drops empty pieces; under the alignment hypothesis
    -- every piece is non-empty, so the filter keeps everything.
    have hfil : (c.value.data.splitOn ',').filter (fun l => !l.isEmpty)
        = c.value.data.splitOn ',' := by
      rw [List.filter_eq_self]
      intro t ht
      have hne : t ≠ [] := by
        intro h0
        exact (hk t ht).1 (by rw [h0]; exact trimWith_nil isWS)
      cases t with
      | nil => exact absurd rfl hne
      | cons x xs => rfl
    show ((splitComma c.value).map (fun k => lowerStr (trimJS k))).any
          (fun k => includes (lowerStr text) k)
        = ((Mobile.splitSeq c.value).map (fun k => lowerStr (Mobile.trimSwift k))).any
            (fun k => Mobile.swiftContains (lowerStr text) k)
    rw [splitComma, Mobile.splitSeq, hfil, List.map_map, List.map_map]
    have hmap : List.map ((fun k => lowerStr (Mobile.trimSwift k)) ∘ fun l => (⟨l⟩ : String))
          (c.value.data.splitOn ',')
        = List.map ((fun k => lowerStr (trimJS k)) ∘ fun l => (⟨l⟩ : String))
          (c.value.data.splitOn ',') := by
      apply List.map_congr_left
      intro t ht
      show (⟨(trimWith Mobile.isWSswift t).map Char.toLower⟩ : String)
          = ⟨(trimWith isWS t).map Char.toLower⟩
      rw [htrimEq t ht]
    rw [hmap]
    apply any_congr_mem
    intro k hk2
    rcases List.mem_map.mp hk2 with ⟨t, ht, rfl⟩
    refine (swiftContains_eq_includes (lowerStr text) _ ?_).symm
    show (trimWith isWS t).map Char.toLower ≠ []
    intro h0
    exact (hk t ht).1 (List.map_eq_nil_iff.mp h0)

theorem matchers_agree_from (text : String) :
    ∀ conds : List Mobile.Condition, (∀ c ∈ conds, CondAligned c) →
      Backend.checkFrom (lowerStr text) (conds.map toBackendCondition)
        = Mobile.matchesFrom text conds
  | [], _ => rfl
  | c :: rest, h => by
    simp only [List.map_cons, Backend.checkFrom, Mobile.matchesFrom]
    rw [evalCondition_agree text c (h c (List.mem_cons_self c rest)),
      matchers_agree_from text rest (fun c' hc' => h c' (List.mem_cons_of_mem c hc'))]

/-! ## Claim C10 -/

/-- C10 (amended): the backend matcher `checkConditions` and the iOS
matcher `RoutingService.matchesRule` agree on every text and every
condition list whose conditions are aligned (`CondAligned`): no
`starts_with` condition, no empty `contains` value, and every
comma-separated `keyword` piece trimming to a non-empty token free of
CR/LF.  Outside this set the two matchers genuinely differ — see the
accompanying counterexample for `starts_with`. -/
theorem backend_mobile_matchers_agree (text id name : String)
    (conds : List Mobile.Condition) (actions : List Mobile.Action) (enabled : Bool)
    (h : ∀ c ∈ conds, CondAligned c) :
    Backend.checkConditions text (conds.map toBackendCondition)
      = Mobile.matchesRule text ⟨id, name, conds, actions, enabled⟩ :=
  matchers_agree_from text conds h

/-- Instantiation of `backend_mobile_matchers_agree` on a rule holding a
`contains` condition and a `keyword` condition. -/
theorem backend_mobile_matchers_agree_witness :
    Backend.checkConditions "I need help urgently"
        ([⟨.contains, "help"⟩, ⟨.keyword, "urgent, asap"⟩].map toBackendCondition)
      = Mobile.matchesRule "I need help urgently"
          ⟨"r1", "escalations", [⟨.contains, "help"⟩, ⟨.keyword, "urgent, asap"⟩], [], true⟩ :=
  backend_mobile_matchers_agree "I need help urgently" "r1" "escalations"
    [⟨.contains, "help"⟩, ⟨.keyword, "urgent, asap"⟩] [] true
    (by
      intro c hc
      rcases List.mem_cons.mp hc with rfl | hc
      · exact ⟨by decide, by decide, by decide⟩
      rcases List.mem_cons.mp hc with rfl | hc
      · exact ⟨by decide, by decide, by decide⟩
      · cases hc)

/-- Counterexample to C10 as stated: on a `starts_with` condition built
from the declared condition types, the backend matcher tests the text
while the iOS matcher's switch hits `default: break` and accepts, so on
the text `b` with the single condition `starts_with a` the backend
returns false and the mobile client returns true. -/
theorem backend_mobile_matchers_differ :
    Backend.checkConditions "b"
        ([⟨Mobile.ConditionType.startsWith, "a"⟩].map toBackendCondition) = false
    ∧ Mobile.matchesRule "b" ⟨"r2", "n", [⟨Mobile.ConditionType.startsWith, "a"⟩], [], true⟩
      = true :=
  ⟨by decide, by decide⟩

/-! ## Claim C1 -/

/-- C1 (amended): the discord, telegram and slack handlers produce
exactly one log entry per attempted dispatch whatever the network
outcome — on an exception a single `failed` entry carrying the
exception message, on a non-2xx response a single `failed` entry
carrying the thrown `<channel> failed: <status>` message; the sms and
email handlers produce exactly one `sent` entry per accepted request;
the generic webhook handler produces exactly one entry when a response
arrives, but a network exception there produces no entry at all. -/
theorem dispatch_produces_one_log_entry (u c w ch ph toA subj bj : String)
    (net : Backend.FetchResult) :
    (Backend.discordSend u c w net).1.length = 1
    ∧ (Backend.telegramSend u c ch net).1.length = 1
    ∧ (Backend.slackSend u c w net).1.length = 1
    ∧ (Backend.smsSend u c ph).1 = [⟨u, "sms", ph, Backend.sliceTo 1000 c, "sent", none⟩]
    ∧ (Backend.emailSend u toA subj).1 = [⟨u, "email", toA, subj, "sent", none⟩]
    ∧ (∀ msg, net = .exc msg →
        (Backend.discordSend u c w net).1
          = [⟨u, "discord", w, Backend.sliceTo 1000 c, "failed", some msg⟩]
        ∧ (Backend.telegramSend u c ch net).1
          = [⟨u, "telegram", ch, Backend.sliceTo 1000 c, "failed", some msg⟩]
        ∧ (Backend.slackSend u c w net).1
          = [⟨u, "slack", w, Backend.sliceTo 1000 c, "failed", some msg⟩])
    ∧ (∀ s b, net = .resp s b → Backend.respOk s = false →
        (Backend.discordSend u c w net).1
          = [⟨u, "discord", w, Backend.sliceTo 1000 c, "failed",
              some ("Discord webhook failed: " ++ toString s)⟩])
    ∧ (∀ s b, net = .resp s b → (Backend.customSend u w (some bj) net).1.length = 1)
    ∧ (∀ msg, net = .exc msg → (Backend.customSend u w (some bj) net).1 = []) := by
  refine ⟨?_, ?_, ?_, rfl, rfl, ?_, ?_, ?_, ?_⟩
  · cases net with
    | resp s b =>
      simp only [Backend.discordSend]
      split <;> rfl
    | exc m => rfl
  · cases net with
    | resp s b =>
      simp only [Backend.telegramSend]
      split <;> rfl
    | exc m => rfl
  · cases net with
    | resp s b =>
      simp only [Backend.slackSend]
      split <;> rfl
    | exc m => rfl
  · intro msg hmsg
    subst hmsg
    exact ⟨rfl, rfl, rfl⟩
  · intro s b hsb hnok
    subst hsb
    simp [Backend.discordSend, hnok]
  · intro s b hsb
    subst hsb
    rfl
  · intro msg hmsg
    subst hmsg
    rfl

/-- Instantiation of `dispatch_produces_one_log_entry` at a network
exception: the discord handler logs one failed entry while the generic
webhook handler logs nothing. -/
theorem dispatch_produces_one_log_entry_witness :
    (Backend.discordSend "u1" "hi" "https://example.com/h" (.exc "boom")).1
      = [⟨"u1", "discord", "https://example.com/h", Backend.sliceTo 1000 "hi",
          "failed", some "boom"⟩]
    ∧ (Backend.customSend "u1" "https://example.com/h" (some "null") (.exc "boom")).1 = [] :=
  have h := dispatch_produces_one_log_entry "u1" "hi" "https://example.com/h" "c1" "p1"
    "a@b.c" "s" "null" (.exc "boom")
  ⟨(h.2.2.2.2.2.1 "boom" rfl).1, h.2.2.2.2.2.2.2.2 "boom" rfl⟩

/-- Counterexample to C1 as stated: a network exception during a generic
webhook dispatch is caught by a catch block that creates no log entry,
so this attempted dispatch produces zero entries rather than one
`failed` entry recording the exception message. -/
theorem webhook_exception_logs_nothing :
    (Backend.customSend "u1" "https://example.com/hook" (some "null")
      (.exc "fetch failed")).1 = [] := rfl

/-! ## Claim C7 -/

/-- C7 (amended): the sms, email and generic webhook endpoints reject a
malformed payload with status 500 and produce no log entry; the discord
and slack endpoints (and the identically shaped telegram endpoint)
instead log exactly one `failed` entry for a malformed payload, so
there a validation error is recorded as a delivery attempt, and the
rejection carries only the error message, not field-level detail. -/
theorem malformed_payload_handling (u : String) (r : Backend.RawBody)
    (net : Backend.FetchResult) (c p toA subj bod uu bj : Option String) :
    (Backend.parseHookBody r = none →
      (Backend.discordRoute u r net).1
        = [⟨u, "discord", r.webhookUrl.getD "", (r.content.map (Backend.sliceTo 1000)).getD "",
            "failed", some "ZodError"⟩]
      ∧ (Backend.discordRoute u r net).2 = 500
      ∧ (Backend.slackRoute u r net).1
        = [⟨u, "slack", r.webhookUrl.getD "", (r.content.map (Backend.sliceTo 1000)).getD "",
            "failed", some "ZodError"⟩]
      ∧ (Backend.slackRoute u r net).2 = 500)
    ∧ (Backend.parseSmsBody c p = none → Backend.smsRoute u c p = ([], 500))
    ∧ (Backend.parseEmailBody toA subj bod = none → Backend.emailRoute u toA subj bod = ([], 500))
    ∧ (Backend.parseCustomBody uu bj = none → Backend.customRoute u uu bj net = ([], 500)) := by
  refine ⟨?_, ?_, ?_, ?_⟩
  · intro hp
    refine ⟨?_, ?_, ?_, ?_⟩ <;> simp [Backend.discordRoute, Backend.slackRoute, hp]
  · intro hp
    simp [Backend.smsRoute, hp]
  · intro hp
    simp [Backend.emailRoute, hp]
  · intro hp
    simp [Backend.customRoute, hp]

/-- Instantiation of `malformed_payload_handling` on concrete malformed
request bodies. -/
theorem malformed_payload_handling_witness :
    (Backend.discordRoute "u1" ⟨none, none⟩ (.exc "x")).1
      = [⟨"u1", "discord", "", "", "failed", some "ZodError"⟩]
    ∧ Backend.smsRoute "u1" none none = ([], 500)
    ∧ Backend.emailRoute "u1" none none none = ([], 500)
    ∧ Backend.customRoute "u1" none none (.exc "x") = ([], 500) :=
  have h := malformed_payload_handling "u1" ⟨none, none⟩ (.exc "x")
    none none none none none none none
  ⟨(h.1 rfl).1, h.2.1 rfl, h.2.2.1 rfl, h.2.2.2 rfl⟩

/-- Counterexample to C7 as stated: the discord endpoint, handed a
request body missing both fields (schema validation fails), creates one
`failed` message log entry — the validation error is recorded as a
delivery attempt rather than producing no entry. -/
theorem malformed_discord_request_logged :
    (Backend.discordRoute "u1" ⟨none, none⟩ (.exc "unused")).1
      = [⟨"u1", "discord", "", "", "failed", some "ZodError"⟩] := rfl

/-! ## Claim C8 -/

/-- C8 (amended): every log entry produced by the discord, telegram,
sms, slack and generic webhook handlers has a content field of at most
1000 characters, for every input; the email handler alone stores the
raw subject as the content, which can exceed the bound — see the
accompanying counterexample. -/
theorem log_content_bounded_except_email (u c w ch ph : String) (bj : Option String)
    (net : Backend.FetchResult) :
    (∀ e ∈ (Backend.discordSend u c w net).1, e.content.length ≤ 1000)
    ∧ (∀ e ∈ (Backend.telegramSend u c ch net).1, e.content.length ≤ 1000)
    ∧ (∀ e ∈ (Backend.slackSend u c w net).1, e.content.length ≤ 1000)
    ∧ (∀ e ∈ (Backend.smsSend u c ph).1, e.content.length ≤ 1000)
    ∧ (∀ e ∈ (Backend.customSend u w bj net).1, e.content.length ≤ 1000) := by
  have hopt : ((bj.map (Backend.sliceTo 1000)).getD "").length ≤ 1000 := by
    cases bj with
    | none => decide
    | some b => exact sliceTo_length_le 1000 b
  refine ⟨?_, ?_, ?_, ?_, ?_⟩
  · intro e he
    cases net with
    | resp s b =>
      simp only [Backend.discordSend] at he
      split at he <;>
        (rw [List.mem_singleton] at he; subst he; exact sliceTo_length_le 1000 c)
    | exc m =>
      simp only [Backend.discordSend, List.mem_singleton] at he
      subst he
      exact sliceTo_length_le 1000 c
  · intro e he
    cases net with
    | resp s b =>
      simp only [Backend.telegramSend] at he
      split at he <;>
        (rw [List.mem_singleton] at he; subst he; exact sliceTo_length_le 1000 c)
    | exc m =>
      simp only [Backend.telegramSend, List.mem_singleton] at he
      subst he
      exact sliceTo_length_le 1000 c
  · intro e he
    cases net with
    | resp s b =>
      simp only [Backend.slackSend] at he
      split at he <;>
        (rw [List.mem_singleton] at he; subst he; exact sliceTo_length_le 1000 c)
    | exc m =>
      simp only [Backend.slackSend, List.mem_singleton] at he
      subst he
      exact sliceTo_length_le 1000 c
  · intro e he
    simp only [Backend.smsSend, List.mem_singleton] at he
    subst he
    exact sliceTo_length_le 1000 c
  · intro e he
    cases net with
    | resp s b =>
      simp only [Backend.customSend, List.mem_singleton] at he
      subst he
      exact hopt
    | exc m =>
      simp only [Backend.customSend] at he
      exact absurd he (List.not_mem_nil e)

/-- Instantiation of `log_content_bounded_except_email` at a concrete
successful discord dispatch. -/
theorem log_content_bounded_except_email_witness :
    (⟨"u1", "discord", "https://example.com/h", Backend.sliceTo 1000 "hello", "sent", none⟩ :
      Backend.MessageLogEntry).content.length ≤ 1000 :=
  (log_content_bounded_except_email "u1" "hello" "https://example.com/h" "c" "p" none
    (.resp 204 "")).1 _ (by decide)

/-- Counterexample to C8 as stated: the email handler stores the raw
subject as the entry content; with a 1001-character subject the single
produced entry's content has length 1001, above the 1000-character
bound. -/
theorem email_log_entry_exceeds_bound :
    (Backend.emailSend "u1" "a@b.c" longSubject).1
      = [⟨"u1", "email", "a@b.c", longSubject, "sent", none⟩]
    ∧ longSubject.length = 1001 := by
  refine ⟨rfl, ?_⟩
  show (List.replicate 1001 'a').length = 1001
  exact List.length_replicate 1001 'a'

/-! ## Claim C9 -/

/-- C9: the dry-run test endpoint is a pure read: its reply's boolean is
exactly the rule matcher's verdict on the stored rule's conditions, it
creates no message log entry and performs no dispatch, and it leaves
the whole store — the rule table and the log table — unchanged, for
every store, rule id, user and text. -/
theorem testRoute_read_only (st : Backend.ServerState) (id userId content : String) :
    (Backend.testRoute st id userId content).1 = st
    ∧ (Backend.testRoute st id userId content).1.logs = st.logs
    ∧ (∀ r, Backend.findFirstRule st.rules id userId = some r →
        (Backend.testRoute st id userId content).2
          = .ok (Backend.checkConditions content r.conditions) r.name r.actions)
    ∧ (Backend.findFirstRule st.rules id userId = none →
        (Backend.testRoute st id userId content).2 = .notFound) := by
  refine ⟨?_, ?_, ?_, ?_⟩
  · unfold Backend.testRoute
    split <;> rfl
  · unfold Backend.testRoute
    split <;> rfl
  · intro r hr
    unfold Backend.testRoute
    rw [hr]
  · intro hr
    unfold Backend.testRoute
    rw [hr]

/-- Instantiation of `testRoute_read_only` on a concrete store where the
looked-up rule exists. -/
theorem testRoute_read_only_witness :
    (Backend.testRoute sampleState "id1" "u1" "Please process this invoice").1 = sampleState
    ∧ (Backend.testRoute sampleState "id1" "u1" "Please process this invoice").2
      = .ok (Backend.checkConditions "Please process this invoice" sampleStoredRule.conditions)
          sampleStoredRule.name sampleStoredRule.actions :=
  have h := testRoute_read_only sampleState "id1" "u1" "Please process this invoice"
  ⟨h.1, h.2.2.1 sampleStoredRule rfl⟩

end Aria
